import Mathlib

/-!
Verification development for the ConciliadorDePagos repository.

The TypeScript sources are embedded shallowly: JavaScript numbers are
modelled as rationals, strings as Lean strings (lists of characters for
the character-level operations), fallible parsing as Option, and the
stateful matching loop as explicit state passing.  Module structure
mirrors the source files:

* Currency      - src/utils/currency.ts (parseCurrency, amountsMatch)
* Recon         - the reconciliation service variant with month/year and
                  closest-date fallbacks (findSupplierMatch,
                  performReconciliation, calculateStats)
* SupplierExcel - src/services/excel/supplierExcelParser.ts
                  (normalizeDate, findHeaderRow, parseSheet)
* Sabadell      - src/services/pdf/sabadellParser.ts dedup loop
* Bbva          - the BBVA statement parser dedup loop

Random record ids (generateFileId) are produced at the I/O boundary; the
embedding uses a fixed id where the source draws a random one, since no
verified property mentions ids of freshly parsed records.
-/

namespace Conciliador

/-! ## JavaScript primitives -/

/-- Subtraction of rationals written through mkRat: the library's
subtraction is sealed against unfolding, so the embedding carries its
own copy, provably equal to it (jsSub_eq), that lets every concrete
witness evaluate inside the kernel. -/
def jsSub (a b : ℚ) : ℚ :=
  mkRat (a.num * (b.den : Int) - b.num * (a.den : Int)) (a.den * b.den)

/-- Model of Math.abs, written as a conditional for the same
kernel-evaluation reason; jsAbs_eq shows it is the absolute value. -/
def jsAbs (q : ℚ) : ℚ :=
  if q < 0 then -q else q

/-- jsSub is subtraction. -/
theorem jsSub_eq (a b : ℚ) : jsSub a b = a - b := by
  rw [jsSub, Rat.mkRat_eq_div]
  push_cast
  conv_rhs => rw [← Rat.num_div_den a, ← Rat.num_div_den b]
  have ha : ((a.den : ℚ)) ≠ 0 := by exact_mod_cast a.den_nz
  have hb : ((b.den : ℚ)) ≠ 0 := by exact_mod_cast b.den_nz
  field_simp
  ring

/-- jsAbs is the absolute value. -/
theorem jsAbs_eq (q : ℚ) : jsAbs q = |q| := by
  rw [jsAbs]
  split
  · rw [abs_of_neg (by assumption)]
  · rw [abs_of_nonneg (by linarith [not_lt.mp (by assumption)])]

/-- Digits of a character list read as a base-10 natural number
(helper for the parseInt / parseFloat models). -/
def digitsToNat (ds : List Char) : Nat :=
  ds.foldl (fun a c => a * 10 + (c.toNat - 48)) 0

/-- Model of JavaScript parseInt(s, 10): skip leading whitespace, read an
optional sign and then leading decimal digits; none models NaN. -/
def jsParseInt (s : String) : Option Int :=
  let cs := s.toList.dropWhile (fun c => c.isWhitespace)
  let signAndRest : Int × List Char :=
    match cs with
    | '-' :: r => (-1, r)
    | '+' :: r => (1, r)
    | r => (1, r)
  let ds := signAndRest.2.takeWhile (fun c => c.isDigit)
  if ds = [] then none
  else some (signAndRest.1 * (digitsToNat ds : Int))

/-- Model of JavaScript parseFloat restricted to strings over digits,
dots and minus signs (the only characters left after the cleaning steps
of parseCurrency): optional sign, integer digits, optional fraction;
none models NaN. -/
def parseFloatQ (cs : List Char) : Option ℚ :=
  let sign : Int := if cs.headD ' ' = '-' then -1 else 1
  let afterSign := if cs.headD ' ' = '-' ∨ cs.headD ' ' = '+' then cs.tail else cs
  let intPart := afterSign.takeWhile (fun c => c.isDigit)
  let rest := afterSign.dropWhile (fun c => c.isDigit)
  let fracPart :=
    if rest.headD ' ' = '.' then rest.tail.takeWhile (fun c => c.isDigit) else []
  if intPart = [] ∧ fracPart = [] then none
  else
    -- the decimal value sign * (intPart + fracPart / 10^k), written over
    -- the common denominator 10^k so it evaluates inside the kernel
    some (Rat.divInt
      (sign * (digitsToNat intPart * 10 ^ fracPart.length + digitsToNat fracPart))
      (10 ^ fracPart.length))

/-- Last index of a character in a list, -1 when absent
(model of String.lastIndexOf). -/
def lastIndexOfC (cs : List Char) (a : Char) : Int :=
  (cs.foldl (fun (st : Int × Int) c => (st.1 + 1, if c = a then st.1 else st.2))
    (0, -1)).2

/-- Replace the first occurrence of a character
(model of String.replace with a plain-string pattern). -/
def replaceFirst : List Char → Char → Char → List Char
  | [], _, _ => []
  | c :: r, a, b => if c = a then b :: r else c :: replaceFirst r a b

/-- Substring test on character lists (model of String.includes). -/
def listContainsSub (h n : List Char) : Bool :=
  h.tails.any (fun t => n.isPrefixOf t)

/-- Substring test on strings (model of String.includes). -/
def containsSubstr (h n : String) : Bool :=
  listContainsSub h.toList n.toList

/-- Lower-casing as JavaScript toLowerCase acts on the Latin-1 letters
used by the sources: ASCII upper case and the U+00C0..U+00DE block
(except the multiplication sign) map down by 32. -/
def jsToLowerChar (c : Char) : Char :=
  if ('A' ≤ c ∧ c ≤ 'Z') ∨ ('À' ≤ c ∧ c ≤ 'Þ' ∧ c ≠ '×') then
    Char.ofNat (c.toNat + 32)
  else c

/-- Lower-casing lifted to strings. -/
def jsToLowerStr (s : String) : String :=
  String.mk (s.toList.map jsToLowerChar)

/-- Whitespace trim at both ends (model of String.trim), written on the
character list so every proof and witness reduces structurally. -/
def jsTrim (s : String) : String :=
  String.mk (((s.toList.dropWhile Char.isWhitespace).reverse.dropWhile
    Char.isWhitespace).reverse)

/-- Split on a separator character (model of String.split for the
one-character separators used by the sources), structural recursion. -/
def splitChar (sep : Char) : List Char → List (List Char)
  | [] => [[]]
  | c :: rest =>
    let r := splitChar sep rest
    if c = sep then [] :: r
    else (c :: r.headD []) :: r.tail

/-- Split of a string on the slash character. -/
def splitSlash (s : String) : List String :=
  (splitChar '/' s.toList).map String.mk

/-! ## Currency (src/utils/currency.ts) -/

namespace Currency

/-- Characters removed by the first cleaning pass of parseCurrency:
currency symbols and whitespace. -/
def isCurrencyOrSpace (c : Char) : Bool :=
  c = '€' ∨ c = '$' ∨ c = '£' ∨ c = '¥' ∨ c.isWhitespace

/-- First cleaning pass: trim, then drop currency symbols and spaces. -/
def cleanedChars (str : String) : List Char :=
  (jsTrim str).toList.filter (fun c => ¬ isCurrencyOrSpace c)

/-- Second pass: keep only digits, dots and minus signs, then parseFloat;
an unparsable result degrades to 0. -/
def finishParse (cs : List Char) : ℚ :=
  let cs3 := cs.filter (fun c => c.isDigit ∨ c = '.' ∨ c = '-')
  match parseFloatQ cs3 with
  | none => 0
  | some q => q

/-- Model of parseCurrency: empty input yields 0; otherwise clean the
string, disambiguate European and US notation by the positions of the
last comma and the last dot, and parse the result. -/
def parseCurrency (str : String) : ℚ :=
  if str = "" then 0
  else
    let cs1 := cleanedChars str
    let hasComma := cs1.contains ','
    let hasDot := cs1.contains '.'
    let cs2 :=
      if hasComma ∧ hasDot then
        if lastIndexOfC cs1 '.' > lastIndexOfC cs1 ',' then
          cs1.filter (fun c => c ≠ ',')
        else
          replaceFirst (cs1.filter (fun c => c ≠ '.')) ',' '.'
      else if hasComma ∧ ¬ hasDot then
        replaceFirst cs1 ',' '.'
      else cs1
    finishParse cs2

/-- Model of amountsMatch: absolute amounts agree strictly within the
tolerance, Math.abs(Math.abs(a1) - Math.abs(a2)) < tolerance. -/
def amountsMatch (amount1 amount2 tolerance : ℚ) : Bool :=
  jsAbs (jsSub (jsAbs amount1) (jsAbs amount2)) < tolerance

/-- amountsMatch in library arithmetic. -/
theorem amountsMatch_eq (amount1 amount2 tolerance : ℚ) :
    amountsMatch amount1 amount2 tolerance = (|(|amount1| - |amount2|)| < tolerance : Bool) := by
  rw [amountsMatch, jsSub_eq, jsAbs_eq, jsAbs_eq, jsAbs_eq]

end Currency

/-! ## Record types (src/types) -/

/-- Bank statement record. -/
structure BankRecord where
  id : String
  fContable : String
  fValor : String
  concepto : String
  importeRaw : String
  importe : ℚ
  saldo : Option ℚ
  sourceFile : String
  bankType : String
deriving DecidableEq, Repr

/-- Supplier ledger record. -/
structure SupplierRecord where
  id : String
  fecha : String
  codigo : String
  nombre : String
  documento : String
  referencia : String
  importeRaw : String
  importe : ℚ
  sourceFile : String
deriving DecidableEq, Repr

/-- Bank record extended with the matching outcome; status is the
literal string the source stores ("match" or "unmatched"). -/
structure MatchedBankRecord where
  id : String
  fContable : String
  fValor : String
  concepto : String
  importeRaw : String
  importe : ℚ
  saldo : Option ℚ
  sourceFile : String
  bankType : String
  matchedDoc : Option String
  supplierName : Option String
  status : String
deriving DecidableEq, Repr

/-- Reconciliation statistics. -/
structure ReconciliationStats where
  bankTotal : Nat
  supplierTotal : Nat
  «matches» : Nat
  unmatchedCount : Nat
  matchPercentage : ℚ
deriving DecidableEq, Repr

/-- Result of one reconciliation call. -/
structure ReconciliationResult where
  records : List MatchedBankRecord
  stats : ReconciliationStats
deriving DecidableEq, Repr

/-! ## Reconciliation service (month/year and closest-date variant) -/

namespace Recon

open Currency

/-- Caller-supplied options with optional fields. -/
structure MatchingOptions where
  amountTolerance : Option ℚ := none
  useAccountingDate : Option Bool := none
deriving DecidableEq, Repr

/-- Options after merging with the defaults. -/
structure MatchingOptionsReq where
  amountTolerance : ℚ
  useAccountingDate : Bool
deriving DecidableEq, Repr

/-- Default options of the service: tolerance 0.01, accounting date on. -/
def DEFAULT_OPTIONS : MatchingOptionsReq :=
  { amountTolerance := mkRat 1 100, useAccountingDate := true }

/-- Spread-merge of the defaults with the caller's options. -/
def mergeOptions (options : MatchingOptions) : MatchingOptionsReq :=
  { amountTolerance := options.amountTolerance.getD DEFAULT_OPTIONS.amountTolerance,
    useAccountingDate := options.useAccountingDate.getD DEFAULT_OPTIONS.useAccountingDate }

/-- Model of getMonthYear: split a DD/MM/YYYY string on the slashes and
return the MM/YYYY part, none when the shape is wrong. -/
def getMonthYear (dateStr : String) : Option String :=
  if dateStr = "" then none
  else
    match splitSlash dateStr with
    | [_, month, year] => some (month ++ "/" ++ year)
    | _ => none

/-- Days between 0000-03-01-based civil dates and the Unix epoch, the
standard civil-calendar algorithm; month is 1..12 after normalization. -/
def daysFromCivil (y m d : Int) : Int :=
  let y := y - (if m ≤ 2 then 1 else 0)
  let era := y.fdiv 400
  let yoe := y - era * 400
  let mp := (m + 9).emod 12
  let doy := (153 * mp + 2).fdiv 5 + d - 1
  let doe := yoe * 365 + yoe.fdiv 4 - yoe.fdiv 100 + doy
  era * 146097 + doe - 719468

/-- Milliseconds of new Date(year, month, day).getTime(): two-digit
years map into 1900..1999, month and day overflow is normalized onto
the timeline.  The embedding uses UTC; the source uses the local zone,
a constant shift that cancels in every comparison the service makes. -/
def jsDateMs (year month day : Int) : Int :=
  let y0 := if 0 ≤ year ∧ year ≤ 99 then year + 1900 else year
  let ym := y0 * 12 + month
  (daysFromCivil (ym.fdiv 12) (ym.emod 12 + 1) 1 + (day - 1)) * 86400000

/-- Model of parseDate followed by getTime on a DD/MM/YYYY string.
none covers both the null returns of the source (empty string, not
three slash-separated parts) and an invalid date (a component that
parseInt turns into NaN): in every caller both cases lose every
strict-less comparison, exactly as NaN does. -/
def parseDateMs (dateStr : String) : Option Int :=
  if dateStr = "" then none
  else
    match splitSlash dateStr with
    | [p0, p1, p2] =>
      match jsParseInt p0, jsParseInt p1, jsParseInt p2 with
      | some day, some month, some year => some (jsDateMs year (month - 1) day)
      | _, _, _ => none
    | _ => none

/-- One step of the closest-date scan: keep the supplier whose parsed
date is strictly nearer to the target; unparsable supplier dates never
win a comparison. -/
def closestStep (target : Int) (acc : SupplierRecord × Option Nat)
    (supplier : SupplierRecord) : SupplierRecord × Option Nat :=
  match parseDateMs supplier.fecha with
  | none => acc
  | some t =>
    let diff := (target - t).natAbs
    match acc.2 with
    | none => (supplier, some diff)
    | some best => if diff < best then (supplier, some diff) else acc

/-- Model of findClosestDateMatch: none for an empty candidate list, the
first candidate when the target date does not parse, otherwise the
candidate at minimal absolute distance (first winner kept on ties),
starting from the first candidate at distance infinity (modelled by the
none accumulator). -/
def findClosestDateMatch (suppliers : List SupplierRecord) (targetDate : String) :
    Option SupplierRecord :=
  match suppliers with
  | [] => none
  | s0 :: _ =>
    match parseDateMs targetDate with
    | none => some s0
    | some target =>
      some (suppliers.foldl (closestStep target) (s0, (none : Option Nat))).1

/-- Amount-candidate set of a bank record: the still-available supplier
records whose amount matches within tolerance (step 1 of
findSupplierMatch). -/
def amountMatchesOf (bankRecord : BankRecord) (supplierRecords : List SupplierRecord)
    (options : MatchingOptionsReq) : List SupplierRecord :=
  supplierRecords.filter
    (fun supplier => amountsMatch supplier.importe bankRecord.importe options.amountTolerance)

/-- Shared shape of steps 2 and 3 of findSupplierMatch, which the source
writes out twice, once for the value date and once for the accounting
date: filter the amount candidates by month/year of the given bank date;
an outer none is the fall-through to the next step, an inner result is
returned from the function (the nonempty branch picks the closest date
when several candidates share the month, else the single one). -/
def monthYearStep (amountMatches : List SupplierRecord) (bankDate : String) :
    Option (Option SupplierRecord) :=
  match getMonthYear bankDate with
  | none => none
  | some bankMonthYear =>
    let monthMatches := amountMatches.filter
      (fun supplier => getMonthYear supplier.fecha = some bankMonthYear)
    if monthMatches.length > 0 then
      if monthMatches.length > 1 then
        some (findClosestDateMatch monthMatches bankDate)
      else some monthMatches.head?
    else none

/-- Step 4 of findSupplierMatch: the closest candidate to the value
date; when the accounting date is enabled and lies nearer to that
candidate, the closest candidate to the accounting date instead. -/
def closestFallback (bankRecord : BankRecord) (amountMatches : List SupplierRecord)
    (options : MatchingOptionsReq) : Option SupplierRecord :=
  let closestMatch := findClosestDateMatch amountMatches bankRecord.fValor
  match options.useAccountingDate, closestMatch with
  | true, some cm =>
    let closestWithContable := findClosestDateMatch amountMatches bankRecord.fContable
    match parseDateMs cm.fecha, parseDateMs bankRecord.fValor,
        parseDateMs bankRecord.fContable, closestWithContable with
    | some closestDate, some fValorDate, some fContableDate, some cwc =>
      let diffValor := (closestDate - fValorDate).natAbs
      let diffContable := (closestDate - fContableDate).natAbs
      if diffContable < diffValor then some cwc else some cm
    | _, _, _, _ => some cm
  | _, _ => closestMatch

/-- Model of findSupplierMatch of the month/year variant of the
service: amount filter, then zero or single candidate short-circuits,
then month/year against the value date, then month/year against the
accounting date when enabled, then the closest-date fallback. -/
def findSupplierMatch (bankRecord : BankRecord) (supplierRecords : List SupplierRecord)
    (options : MatchingOptionsReq) : Option SupplierRecord :=
  let amountMatches := amountMatchesOf bankRecord supplierRecords options
  if amountMatches.length = 0 then none
  else if amountMatches.length = 1 then amountMatches.head?
  else
    match monthYearStep amountMatches bankRecord.fValor with
    | some r => r
    | none =>
      match (if options.useAccountingDate then
          monthYearStep amountMatches bankRecord.fContable
        else none) with
      | some r => r
      | none => closestFallback bankRecord amountMatches options

/-- Model of calculateStats: count matched records and derive the
percentage, 0 when there are no records. -/
def calculateStats (records : List MatchedBankRecord) (supplierTotal : Nat) :
    ReconciliationStats :=
  let «matches» := (records.filter (fun r => r.status = "match")).length
  let unmatchedCount := records.length - «matches»
  let matchPercentage : ℚ :=
    if records.length > 0 then ((«matches» : ℚ) / (records.length : ℚ)) * 100 else 0
  { bankTotal := records.length
    supplierTotal := supplierTotal
    «matches» := «matches»
    unmatchedCount := unmatchedCount
    matchPercentage := matchPercentage }

/-- Removal of the first supplier with the given id, the model of
findIndex on the id followed by splice of one element; an absent id
leaves the pool unchanged, as the index -1 guard does. -/
def removeById : List SupplierRecord → String → List SupplierRecord
  | [], _ => []
  | s :: rest, matchId =>
    if s.id = matchId then rest else s :: removeById rest matchId

/-- Matched output record: all bank fields spread unchanged plus the
supplier's document and name and the "match" status. -/
def mkMatchedRecord (b : BankRecord) (m : SupplierRecord) : MatchedBankRecord :=
  { id := b.id, fContable := b.fContable, fValor := b.fValor, concepto := b.concepto
    importeRaw := b.importeRaw, importe := b.importe, saldo := b.saldo
    sourceFile := b.sourceFile, bankType := b.bankType
    matchedDoc := some m.documento, supplierName := some m.nombre, status := "match" }

/-- Unmatched output record: all bank fields spread unchanged plus null
payloads and the "unmatched" status. -/
def mkUnmatchedRecord (b : BankRecord) : MatchedBankRecord :=
  { id := b.id, fContable := b.fContable, fValor := b.fValor, concepto := b.concepto
    importeRaw := b.importeRaw, importe := b.importe, saldo := b.saldo
    sourceFile := b.sourceFile, bankType := b.bankType
    matchedDoc := none, supplierName := none, status := "unmatched" }

/-- The map over bank records of performReconciliation, with the
mutable availableSuppliers pool made an explicit argument: a found
match is consumed from the pool before the rest of the list runs. -/
def reconcileLoop (bankRecords : List BankRecord) (availableSuppliers : List SupplierRecord)
    (options : MatchingOptionsReq) : List MatchedBankRecord :=
  match bankRecords with
  | [] => []
  | b :: rest =>
    match findSupplierMatch b availableSuppliers options with
    | some m => mkMatchedRecord b m :: reconcileLoop rest (removeById availableSuppliers m.id) options
    | none => mkUnmatchedRecord b :: reconcileLoop rest availableSuppliers options

/-- Model of performReconciliation: merge options, run the matching
loop on a copy of the supplier pool, attach statistics. -/
def performReconciliation (bankRecords : List BankRecord)
    (supplierRecords : List SupplierRecord) (options : MatchingOptions) :
    ReconciliationResult :=
  let mergedOptions := mergeOptions options
  let matchedRecords := reconcileLoop bankRecords supplierRecords mergedOptions
  { records := matchedRecords
    stats := calculateStats matchedRecords supplierRecords.length }

/-- Observer of the matching loop: the supplier records it consumes, in
consumption order.  It re-expresses which pool elements reconcileLoop
selects and removes; it adds nothing to the algorithm. -/
def consumedSuppliers (bankRecords : List BankRecord)
    (availableSuppliers : List SupplierRecord) (options : MatchingOptionsReq) :
    List SupplierRecord :=
  match bankRecords with
  | [] => []
  | b :: rest =>
    match findSupplierMatch b availableSuppliers options with
    | some m => m :: consumedSuppliers rest (removeById availableSuppliers m.id) options
    | none => consumedSuppliers rest availableSuppliers options

/-- Projection of an output record back onto its bank-record fields. -/
def bankFieldsOf (r : MatchedBankRecord) : BankRecord :=
  { id := r.id, fContable := r.fContable, fValor := r.fValor, concepto := r.concepto
    importeRaw := r.importeRaw, importe := r.importe, saldo := r.saldo
    sourceFile := r.sourceFile, bankType := r.bankType }

end Recon

/-! ## Supplier Excel parser (src/services/excel/supplierExcelParser.ts) -/

namespace SupplierExcel

open Currency

/-- Pad a string on the left with zeros to length two
(model of padStart(2, zero)). -/
def padStart2 (s : String) : String :=
  if s.length ≥ 2 then s
  else if s.length = 1 then "0" ++ s
  else "00"

/-- Character class of the month-name group of the DD-MMM-YY pattern:
the case-insensitive Latin-1 letter ranges the source regex names. -/
def isMonthNameChar (c : Char) : Bool :=
  ('a' ≤ c ∧ c ≤ 'z') ∨ ('A' ≤ c ∧ c ≤ 'Z') ∨ ('á' ≤ c ∧ c ≤ 'ú') ∨ ('Á' ≤ c ∧ c ≤ 'Ú')

/-- Month-name table of normalizeDate. -/
def monthMap : List (String × String) :=
  [("ene", "01"), ("enero", "01"), ("gen", "01"), ("gener", "01"), ("jan", "01"),
   ("feb", "02"), ("febrero", "02"), ("febrer", "02"),
   ("mar", "03"), ("marzo", "03"), ("març", "03"),
   ("abr", "04"), ("abril", "04"), ("apr", "04"),
   ("may", "05"), ("mayo", "05"), ("maig", "05"),
   ("jun", "06"), ("junio", "06"), ("juny", "06"),
   ("jul", "07"), ("julio", "07"), ("juliol", "07"),
   ("ago", "08"), ("agosto", "08"), ("agost", "08"), ("aug", "08"),
   ("sep", "09"), ("septiembre", "09"), ("setembre", "09"), ("sept", "09"),
   ("oct", "10"), ("octubre", "10"),
   ("nov", "11"), ("noviembre", "11"), ("novembre", "11"),
   ("dic", "12"), ("diciembre", "12"), ("desembre", "12"), ("dec", "12")]

/-- Matcher of the anchored DD-MMM-YY pattern: one or two digits, a
dash, one or more month-name letters, a dash, two to four digits, end
of string; returns the three captured groups. -/
def matchDDMMMYY (s : String) : Option (String × String × String) :=
  let cs := s.toList
  let d1 := cs.takeWhile (fun c => c.isDigit)
  let r1 := cs.dropWhile (fun c => c.isDigit)
  if d1.length < 1 ∨ d1.length > 2 then none
  else
    match r1 with
    | '-' :: r2 =>
      let mn := r2.takeWhile isMonthNameChar
      let r3 := r2.dropWhile isMonthNameChar
      if mn = [] then none
      else
        match r3 with
        | '-' :: r4 =>
          let ys := r4.takeWhile (fun c => c.isDigit)
          let r5 := r4.dropWhile (fun c => c.isDigit)
          if 2 ≤ ys.length ∧ ys.length ≤ 4 ∧ r5 = [] then
            some (String.mk d1, String.mk mn, String.mk ys)
          else none
        | _ => none
    | _ => none

/-- Group of one or two digits. -/
def isShortDigitGroup (s : String) : Bool :=
  1 ≤ s.length ∧ s.length ≤ 2 ∧ s.toList.all (fun c => c.isDigit)

/-- Group of exactly n digits. -/
def isDigitGroupOf (n : Nat) (s : String) : Bool :=
  s.length = n ∧ s.toList.all (fun c => c.isDigit)

/-- Matcher of the anchored MM/DD/YYYY pattern, via the slash-separated
parts (digits contain no slash, so the split is exactly the groups). -/
def matchSlashLong (s : String) : Option (String × String × String) :=
  match splitSlash s with
  | [a, b, c] =>
    if isShortDigitGroup a ∧ isShortDigitGroup b ∧ isDigitGroupOf 4 c then
      some (a, b, c)
    else none
  | _ => none

/-- Matcher of the anchored MM/DD/YY pattern. -/
def matchSlashShort (s : String) : Option (String × String × String) :=
  match splitSlash s with
  | [a, b, c] =>
    if isShortDigitGroup a ∧ isShortDigitGroup b ∧ isDigitGroupOf 2 c then
      some (a, b, c)
    else none
  | _ => none

/-- Civil date of a day count from the Unix epoch, the standard inverse
of the day-number algorithm; yields (year, month, day). -/
def civilFromDays (z0 : Int) : Int × Int × Int :=
  let z := z0 + 719468
  let era := z.fdiv 146097
  let doe := z - era * 146097
  let yoe := (doe - doe.fdiv 1460 + doe.fdiv 36524 - doe.fdiv 146096).fdiv 365
  let y := yoe + era * 400
  let doy := doe - (365 * yoe + yoe.fdiv 4 - yoe.fdiv 100)
  let mp := (5 * doy + 2).fdiv 153
  let d := doy - (153 * mp + 2).fdiv 5 + 1
  let m := mp + (if mp < 10 then 3 else -9)
  (if m ≤ 2 then y + 1 else y, m, d)

/-- Spreadsheet serial to DD/MM/YYYY: the source builds a Date from the
serial relative to the 1970 epoch offset 25569 and reads its day, month
and year; modelled in UTC as for the other date conversions. -/
def excelSerialToDate (n : Int) : String :=
  let days := n - 25569
  let ymd := civilFromDays days
  padStart2 (toString ymd.2.2) ++ "/" ++ padStart2 (toString ymd.2.1) ++ "/" ++ toString ymd.1

/-- Model of normalizeDate: DD-MMM-YY first, then the American slash
formats, then spreadsheet serials above 1000, otherwise the input is
returned untouched. -/
def normalizeDate (dateStr : String) : String :=
  if dateStr = "" then ""
  else
    let str := jsTrim dateStr
    match matchDDMMMYY str with
    | some (d, mn, ys) =>
      let day := padStart2 d
      let monthName := jsToLowerStr mn
      let month := ((monthMap.lookup monthName).getD "01")
      let year := if ys.length = 2 then "20" ++ ys else ys
      day ++ "/" ++ month ++ "/" ++ year
    | none =>
      match matchSlashLong str with
      | some (mm, dd, yyyy) => padStart2 dd ++ "/" ++ padStart2 mm ++ "/" ++ yyyy
      | none =>
        match matchSlashShort str with
        | some (mm, dd, yy) => padStart2 dd ++ "/" ++ padStart2 mm ++ "/" ++ ("20" ++ yy)
        | none =>
          if str.toList ≠ [] ∧ str.toList.all (fun c => c.isDigit) ∧
              (digitsToNat str.toList : Int) > 1000 then
            excelSerialToDate (digitsToNat str.toList : Int)
          else str

/-- Header-row predicate of findHeaderRow: at least four cells, a
client column, and at least two of the other key columns, all located
by case-insensitive trimmed substring tests. -/
def headerPred (row : List String) : Bool :=
  row.length ≥ 4 &&
    (let cells := row.map (fun c => jsTrim (jsToLowerStr c))
     let hasClient := cells.any (fun c =>
       containsSubstr c "client" || containsSubstr c "previsió" || containsSubstr c "previsio")
     let hasDataFra := cells.any (fun c => containsSubstr c "data fra")
     let hasNumFra := cells.any (fun c => containsSubstr c "num" && containsSubstr c "fra")
     let hasImport := cells.any (fun c => c == "import")
     let hasVenciment := cells.any (fun c => containsSubstr c "venciment")
     let keyFieldsCount :=
       ([hasDataFra, hasNumFra, hasImport, hasVenciment].filter (fun b => b)).length
     hasClient && keyFieldsCount ≥ 2)

/-- Model of findHeaderRow: index of the first header-looking row; the
source's -1 is modelled by none. -/
def findHeaderRow (rows : List (List String)) : Option Nat :=
  rows.findIdx? headerPred

/-- Model of Array.findIndex: -1 when no cell satisfies the test. -/
def jsFindIndexStr (l : List String) (p : String → Bool) : Int :=
  match l.findIdx? p with
  | some i => (i : Int)
  | none => -1

/-- Cell access at a possibly negative JavaScript index: out-of-range
reads give undefined, which the source coerces to the empty string. -/
def cellAt (row : List String) (i : Int) : String :=
  if i < 0 then "" else row.getD i.toNat ""

/-- Column indices parseSheet resolves from the header row. -/
structure SheetCols where
  colCodic : Int
  colClient : Int
  colDataFra : Int
  colNumFra : Int
  colVenciment : Int
  colImport : Int
  colFecha : Int

/-- Column resolution of parseSheet over the lower-cased trimmed header
cells. -/
def resolveCols (header : List String) : SheetCols :=
  { colCodic := jsFindIndexStr header (fun h =>
      containsSubstr h "còdic" || containsSubstr h "codic" || h == "codi")
    colClient := jsFindIndexStr header (fun h =>
      containsSubstr h "client" || containsSubstr h "previsió" || containsSubstr h "previsio")
    colDataFra := jsFindIndexStr header (fun h => containsSubstr h "data fra")
    colNumFra := jsFindIndexStr header (fun h => containsSubstr h "num" && containsSubstr h "fra")
    colVenciment := jsFindIndexStr header (fun h => containsSubstr h "venciment")
    colImport := jsFindIndexStr header (fun h => h == "import")
    colFecha := jsFindIndexStr header (fun h => h == "fecha") }

/-- Data-row loop of parseSheet: skip short rows, rows with an empty
client, invoice number or raw amount, total rows, and rows whose amount
parses to 0; otherwise emit a supplier record.  The random
generateFileId of the source is replaced by a fixed empty id. -/
def processRows (cols : SheetCols) (fileName sheetName : String) :
    List (List String) → List SupplierRecord
  | [] => []
  | row :: rest =>
    if (row.length : Int) < max cols.colClient cols.colImport + 1 then
      processRows cols fileName sheetName rest
    else
      let codic := jsTrim (cellAt row cols.colCodic)
      let cliente := jsTrim (cellAt row cols.colClient)
      let dataFra := jsTrim (cellAt row cols.colDataFra)
      let numFra := jsTrim (cellAt row cols.colNumFra)
      let venciment := jsTrim (cellAt row cols.colVenciment)
      let importRaw := jsTrim (cellAt row cols.colImport)
      let fechaCol := jsTrim (cellAt row cols.colFecha)
      if cliente = "" ∨ numFra = "" ∨ importRaw = "" then
        processRows cols fileName sheetName rest
      else if cliente = "T O T A L S" ∨ containsSubstr cliente "TOTAL" then
        processRows cols fileName sheetName rest
      else
        let importe := parseCurrency importRaw
        if importe = 0 then
          processRows cols fileName sheetName rest
        else
          let fecha0 := normalizeDate (if venciment ≠ "" then venciment else dataFra)
          let fecha := if fechaCol ≠ "" ∧ fecha0 = "" then normalizeDate fechaCol else fecha0
          { id := "", fecha := fecha, codigo := codic, nombre := cliente,
            documento := numFra, referencia := "", importeRaw := importRaw,
            importe := importe,
            sourceFile := fileName ++ " - " ++ sheetName : SupplierRecord }
            :: processRows cols fileName sheetName rest

/-- Model of parseSheet: locate the header row, resolve the columns,
then run the data-row loop on the rows below the header. -/
def parseSheet (rows : List (List String)) (fileName sheetName : String) :
    List SupplierRecord :=
  match findHeaderRow rows with
  | none => []
  | some headerRow =>
    let header := (rows.getD headerRow []).map (fun c => jsTrim (jsToLowerStr c))
    let cols := resolveCols header
    processRows cols fileName sheetName (rows.drop (headerRow + 1))

end SupplierExcel

/-! ## Sabadell statement parser dedup loop
(src/services/pdf/sabadellParser.ts, two-date pattern) -/

namespace Sabadell

open Currency

/-- One match of the two-date pattern: the five captured groups, the
balance group optional. -/
structure SabMatch where
  g1 : String
  g2 : String
  g3 : String
  g4 : String
  g5 : Option String
deriving DecidableEq, Repr

/-- Date normalization of this parser: dashes become slashes. -/
def normalizeDashes (date : String) : String :=
  String.mk (date.toList.map (fun c => if c = '-' then '/' else c))

/-- Header keywords of isHeaderText. -/
def headerKeywords : List String :=
  ["fecha", "concepto", "importe", "saldo", "debe", "haber",
   "operación", "valor", "descripción", "movimiento"]

/-- Model of isHeaderText: a short text containing a header keyword. -/
def isHeaderText (text : String) : Bool :=
  headerKeywords.any (fun keyword =>
    containsSubstr (jsToLowerStr text) keyword && text.length < 30)

/-- First 30 characters of a string (model of substring(0, 30)). -/
def take30 (s : String) : String :=
  String.mk (s.toList.take 30)

/-- The two-date match loop: the dedup key is posting date, value date,
the first 30 characters of the trimmed description, and the raw amount;
the key is recorded only when the record is kept.  The regex engine
supplying the matches is the boundary; the loop takes its output. -/
def extractLoop (seen : List String) : List SabMatch → List BankRecord
  | [] => []
  | m :: rest =>
    let fContable := normalizeDashes m.g1
    let fValor := normalizeDashes m.g2
    let concepto := jsTrim m.g3
    let importeRaw := m.g4
    let saldoRaw := m.g5
    let uniqueKey := fContable ++ "-" ++ fValor ++ "-" ++ take30 concepto ++ "-" ++ importeRaw
    if uniqueKey ∉ seen ∧ concepto ≠ "" ∧ concepto.length > 2 ∧ ¬ isHeaderText concepto then
      { id := "", fContable := fContable, fValor := fValor, concepto := concepto,
        importeRaw := importeRaw, importe := parseCurrency importeRaw,
        saldo := saldoRaw.map parseCurrency, sourceFile := "", bankType := "sabadell"
        : BankRecord } :: extractLoop (uniqueKey :: seen) rest
    else extractLoop seen rest

end Sabadell

/-! ## BBVA statement parser dedup loop (multi-pattern variant) -/

namespace Bbva

open Currency

/-- The match loop of the multi-pattern BBVA parser over the raw match
arrays (entry 0 the full match, then the groups): the dedup key is
posting date, value date and raw amount only — the description is not
part of the key — and the key is recorded before the short-description
check.  The five regex passes are the boundary; the loop takes their
concatenated output. -/
def extractLoop (seen : List String) : List (List String) → List BankRecord
  | [] => []
  | m :: rest =>
    let hasTwoDates := m.length ≥ 5
    let fContable := m.getD 1 ""
    let fValor := if hasTwoDates then m.getD 2 "" else m.getD 1 ""
    let concepto := if hasTwoDates then m.getD 3 "" else m.getD 2 ""
    let importeRaw := if hasTwoDates then m.getD 4 "" else m.getD 3 ""
    let uniqueKey := fContable ++ "-" ++ fValor ++ "-" ++ importeRaw
    if uniqueKey ∈ seen then extractLoop seen rest
    else if concepto ≠ "" ∧ (jsTrim concepto).length > 1 then
      { id := "", fContable := fContable, fValor := fValor, concepto := jsTrim concepto,
        importeRaw := importeRaw, importe := parseCurrency importeRaw,
        saldo := none, sourceFile := "", bankType := ""
        : BankRecord } :: extractLoop (uniqueKey :: seen) rest
    else extractLoop (uniqueKey :: seen) rest

end Bbva

/-! ## Helper lemmas -/

/-- Members of a takeWhile run satisfy the predicate; a list with no
digit therefore has an empty digit run. -/
theorem takeWhile_isDigit_eq_nil {l : List Char} (h : ∀ c ∈ l, c.isDigit = false) :
    l.takeWhile (fun c => c.isDigit) = [] := by
  cases l with
  | nil => rfl
  | cons c r =>
    have := h c (by simp)
    simp [List.takeWhile_cons, this]

/-- parseFloat of a string without any digit is NaN. -/
theorem parseFloatQ_none_of_noDigit (cs : List Char) (h : ∀ c ∈ cs, c.isDigit = false) :
    parseFloatQ cs = none := by
  have key : ∀ (l : List Char), (∀ c ∈ l, c.isDigit = false) →
      l.takeWhile (fun c => c.isDigit) = [] ∧
      (if (l.dropWhile (fun c => c.isDigit)).headD ' ' = '.' then
          (l.dropWhile (fun c => c.isDigit)).tail.takeWhile (fun c => c.isDigit)
        else ([] : List Char)) = [] := by
    intro l hl
    refine ⟨takeWhile_isDigit_eq_nil hl, ?_⟩
    split
    · exact takeWhile_isDigit_eq_nil fun c hc =>
        hl c ((List.dropWhile_sublist _).subset (List.mem_of_mem_tail hc))
    · rfl
  have htail : ∀ c ∈ cs.tail, c.isDigit = false := fun c hc =>
    h c (List.mem_of_mem_tail hc)
  simp only [parseFloatQ]
  split
  · rcases key cs.tail htail with ⟨k1, k2⟩
    rw [if_pos ⟨k1, k2⟩]
  · rcases key cs h with ⟨k1, k2⟩
    rw [if_pos ⟨k1, k2⟩]

/-- Characters of a trimmed string come from the string. -/
theorem mem_of_mem_jsTrim {c : Char} {s : String} (h : c ∈ (jsTrim s).toList) :
    c ∈ s.toList := by
  simp only [jsTrim] at h
  have h1 : c ∈ (s.toList.dropWhile Char.isWhitespace).reverse.dropWhile Char.isWhitespace := by
    simpa using h
  have h2 := (List.dropWhile_sublist Char.isWhitespace).subset h1
  rw [List.mem_reverse] at h2
  exact (List.dropWhile_sublist Char.isWhitespace).subset h2

/-- Characters after a first-occurrence replacement come from the
original list or are the replacement character. -/
theorem mem_of_mem_replaceFirst {x a b : Char} :
    ∀ {l : List Char}, x ∈ replaceFirst l a b → x ∈ l ∨ x = b := by
  intro l
  induction l with
  | nil => intro h; simp [replaceFirst] at h
  | cons c r ih =>
    intro h
    rw [replaceFirst] at h
    by_cases hc : c = a
    · rw [if_pos hc] at h
      rcases List.mem_cons.mp h with h | h
      · right; exact h
      · left; exact List.mem_cons_of_mem _ h
    · rw [if_neg hc] at h
      rcases List.mem_cons.mp h with h | h
      · left; exact h ▸ List.mem_cons_self _ _
      · rcases ih h with h | h
        · left; exact List.mem_cons_of_mem _ h
        · right; exact h

/-! ## Claims -/

/-- C8: amountsMatch is symmetric for every tolerance; it is reflexive
only for positive tolerances (the original claim's unrestricted
reflexivity fails, see the counterexample); and it returns false
whenever the distance of the absolute amounts is at least the
tolerance. -/
theorem c8_theorem (a b tol : ℚ) :
    Currency.amountsMatch a b tol = Currency.amountsMatch b a tol ∧
    (0 < tol → Currency.amountsMatch a a tol = true) ∧
    (tol ≤ |(|a| - |b|)| → Currency.amountsMatch a b tol = false) := by
  refine ⟨?_, ?_, ?_⟩
  · rw [Currency.amountsMatch_eq, Currency.amountsMatch_eq, abs_sub_comm]
  · intro h
    rw [Currency.amountsMatch_eq]
    simp [h]
  · intro h
    rw [Currency.amountsMatch_eq]
    simp [not_lt.mpr h]

/-- C8 counterexample: at tolerance 0 the relation is not reflexive, so
the unrestricted "for all tolerances reflexive" reading of the claim is
false on the code. -/
theorem c8_counterexample : Currency.amountsMatch 1 1 0 = false := by decide

/-- C8 witness: the amended theorem applied at concrete inputs. -/
theorem c8_witness :
    Currency.amountsMatch 2 2 1 = true ∧ Currency.amountsMatch 5 3 2 = false :=
  ⟨(c8_theorem 2 2 1).2.1 (by norm_num), (c8_theorem 5 3 2).2.2 (by norm_num)⟩

/-- C4: the match percentage of calculateStats equals matched count over
record count times 100, is 0 for an empty record list, and always lies
between 0 and 100; reconciling zero bank records yields an empty result
list and percentage 0 (the embedding is total, so no exception can
arise). -/
theorem c4_theorem :
    (∀ (records : List MatchedBankRecord) (supplierTotal : Nat),
      (Recon.calculateStats records supplierTotal).matchPercentage =
        (if records.length > 0 then
          (((records.filter (fun r => r.status = "match")).length : ℚ) /
            (records.length : ℚ)) * 100
         else 0) ∧
      0 ≤ (Recon.calculateStats records supplierTotal).matchPercentage ∧
      (Recon.calculateStats records supplierTotal).matchPercentage ≤ 100) ∧
    (∀ (supplierRecords : List SupplierRecord) (options : Recon.MatchingOptions),
      (Recon.performReconciliation [] supplierRecords options).records = [] ∧
      (Recon.performReconciliation [] supplierRecords options).stats.matchPercentage = 0) := by
  constructor
  · intro records supplierTotal
    have hm : (records.filter (fun r => r.status = "match")).length ≤ records.length :=
      List.length_filter_le _ _
    refine ⟨rfl, ?_, ?_⟩
    · simp only [Recon.calculateStats]
      split
      · positivity
      · exact le_refl 0
    · simp only [Recon.calculateStats]
      split
      · rename_i hpos
        have hn : (0 : ℚ) < (records.length : ℚ) := by exact_mod_cast hpos
        have h1 : ((records.filter (fun r => r.status = "match")).length : ℚ) ≤
            (records.length : ℚ) := by exact_mod_cast hm
        have h2 : ((records.filter (fun r => r.status = "match")).length : ℚ) /
            (records.length : ℚ) ≤ 1 := (div_le_one hn).mpr h1
        linarith
      · norm_num
  · intro supplierRecords options
    exact ⟨rfl, rfl⟩

/-- C5: parseCurrency handles both locale notations by comparing the
last separator positions (fourth conjunct, stated over every input with
both separators), returns the documented values on the three examples,
and degrades to 0 on digit-free input; totality of the embedding is the
"never raises" half of the claim. -/
theorem c5_theorem :
    Currency.parseCurrency "1.234,56" = (1234.56 : ℚ) ∧
    Currency.parseCurrency "1,234.56" = (1234.56 : ℚ) ∧
    Currency.parseCurrency "" = 0 ∧
    (∀ s : String, s ≠ "" →
      (Currency.cleanedChars s).contains ',' = true →
      (Currency.cleanedChars s).contains '.' = true →
      Currency.parseCurrency s =
        (if lastIndexOfC (Currency.cleanedChars s) '.' >
            lastIndexOfC (Currency.cleanedChars s) ',' then
          Currency.finishParse ((Currency.cleanedChars s).filter (fun c => c ≠ ','))
         else
          Currency.finishParse
            (replaceFirst ((Currency.cleanedChars s).filter (fun c => c ≠ '.')) ',' '.'))) ∧
    (∀ s : String, (∀ c ∈ s.toList, c.isDigit = false) → Currency.parseCurrency s = 0) := by
  refine ⟨?_, ?_, ?_, ?_, ?_⟩
  · have h : Currency.parseCurrency "1.234,56" = mkRat 123456 100 := by decide
    rw [h, Rat.mkRat_eq_div]
    norm_num
  · have h : Currency.parseCurrency "1,234.56" = mkRat 123456 100 := by decide
    rw [h, Rat.mkRat_eq_div]
    norm_num
  · rfl
  · intro s hne hc hd
    rw [Currency.parseCurrency]
    rw [if_neg hne]
    simp only [hc, hd, and_self, if_true]
    split <;> rfl
  · intro s hnd
    by_cases hne : s = ""
    · rw [hne]; rfl
    · have hclean : ∀ c ∈ Currency.cleanedChars s, c.isDigit = false := fun c hc =>
        hnd c (mem_of_mem_jsTrim (List.mem_of_mem_filter hc))
      simp only [Currency.parseCurrency, if_neg hne]
      have main : ∀ (l : List Char), (∀ c ∈ l, c.isDigit = false) →
          Currency.finishParse l = 0 := by
        intro l hl
        rw [Currency.finishParse]
        rw [parseFloatQ_none_of_noDigit _ (fun c hc => hl c (List.mem_of_mem_filter hc))]
      split
      · split
        · exact main _ fun c hc => hclean c (List.mem_of_mem_filter hc)
        · refine main _ fun c hc => ?_
          rcases mem_of_mem_replaceFirst hc with h | h
          · exact hclean c (List.mem_of_mem_filter h)
          · rw [h]; rfl
      · split
        · refine main _ fun c hc => ?_
          rcases mem_of_mem_replaceFirst hc with h | h
          · exact hclean c h
          · rw [h]; rfl
        · exact main _ hclean

/-- C5 witness: the locale-disambiguation conjunct and the digit-free
conjunct applied at concrete inputs. -/
theorem c5_witness :
    Currency.parseCurrency "1.234,56" =
      Currency.finishParse
        (replaceFirst ((Currency.cleanedChars "1.234,56").filter (fun c => c ≠ '.')) ',' '.') ∧
    Currency.parseCurrency "abc" = 0 := by
  constructor
  · have h := (c5_theorem.2.2.2.1) "1.234,56" (by decide) (by decide) (by decide)
    rw [h]
    decide
  · exact (c5_theorem.2.2.2.2) "abc" (by decide)

/-- Bank record of the C3 example: amount -148.29, value date
05/12/2025. -/
def c3Bank : BankRecord :=
  { id := "b1", fContable := "05/12/2025", fValor := "05/12/2025", concepto := "PAGO",
    importeRaw := "-148,29", importe := mkRat (-14829) 100, saldo := none,
    sourceFile := "extracto.pdf", bankType := "bbva" }

/-- Supplier record of the C3 example: amount 148.29, a different date,
document reference 1/FC/250482. -/
def c3Supplier : SupplierRecord :=
  { id := "s1", fecha := "30/12/2025", codigo := "104", nombre := "INDUSTRIAL",
    documento := "1/FC/250482", referencia := "", importeRaw := "148,29",
    importe := mkRat 14829 100, sourceFile := "listado.pdf" }

/-- C3: a single amount candidate is matched with no date comparison
(first conjunct, for every bank record, pool and options), and the
concrete -148.29 example reconciles to status "match" with the
candidate's document reference even though the dates differ. -/
theorem c3_theorem :
    (∀ (bank : BankRecord) (suppliers : List SupplierRecord)
        (options : Recon.MatchingOptionsReq) (s : SupplierRecord),
      Recon.amountMatchesOf bank suppliers options = [s] →
      Recon.findSupplierMatch bank suppliers options = some s) ∧
    ((Recon.performReconciliation [c3Bank] [c3Supplier] {}).records.map
        (fun r => (r.status, r.matchedDoc)) = [("match", some "1/FC/250482")] ∧
      c3Bank.fValor ≠ c3Supplier.fecha) := by
  constructor
  · intro bank suppliers options s h
    rw [Recon.findSupplierMatch]
    simp [h]
  · constructor
    · decide
    · decide

/-- C3 witness: the single-candidate conjunct applied to the example
pool. -/
theorem c3_witness :
    Recon.findSupplierMatch c3Bank [c3Supplier] Recon.DEFAULT_OPTIONS = some c3Supplier :=
  c3_theorem.1 c3Bank [c3Supplier] Recon.DEFAULT_OPTIONS c3Supplier (by decide)

/-- The bank fields of a matched output record are the input record. -/
theorem bankFieldsOf_mkMatchedRecord (b : BankRecord) (m : SupplierRecord) :
    Recon.bankFieldsOf (Recon.mkMatchedRecord b m) = b := rfl

/-- The bank fields of an unmatched output record are the input record. -/
theorem bankFieldsOf_mkUnmatchedRecord (b : BankRecord) :
    Recon.bankFieldsOf (Recon.mkUnmatchedRecord b) = b := rfl

/-- The matching loop returns one output record per bank record, in
input order, with the bank fields untouched. -/
theorem reconcileLoop_map_bankFields (bankRecords : List BankRecord) :
    ∀ (avail : List SupplierRecord) (options : Recon.MatchingOptionsReq),
      (Recon.reconcileLoop bankRecords avail options).map Recon.bankFieldsOf = bankRecords := by
  induction bankRecords with
  | nil => intro avail options; rfl
  | cons b rest ih =>
    intro avail options
    rw [Recon.reconcileLoop]
    cases h : Recon.findSupplierMatch b avail options with
    | some m =>
      simp only [List.map_cons, bankFieldsOf_mkMatchedRecord, ih]
    | none =>
      simp only [List.map_cons, bankFieldsOf_mkUnmatchedRecord, ih]

/-- C9: performReconciliation emits exactly one output record per input
bank record, in input order, each preserving every bank field (the map
through the bank-field projection recovers the input list); the
supplier list is passed by value in the embedding, so the caller's
array cannot be mutated. -/
theorem c9_theorem (bankRecords : List BankRecord) (supplierRecords : List SupplierRecord)
    (options : Recon.MatchingOptions) :
    (Recon.performReconciliation bankRecords supplierRecords options).records.map
        Recon.bankFieldsOf = bankRecords ∧
    (Recon.performReconciliation bankRecords supplierRecords options).records.length
        = bankRecords.length := by
  have h := reconcileLoop_map_bankFields bankRecords supplierRecords
    (Recon.mergeOptions options)
  refine ⟨h, ?_⟩
  have := congrArg List.length h
  simpa using this

/-- C6: the DD-monthName-YY path of normalizeDate yields DD/MM/YYYY with
the month resolved through the Spanish/Catalan table, and every
two-digit year is expanded to 20xx (the claim's 19xx branch for years
of 50 and above does not exist in the code, see the counterexample). -/
theorem c6_theorem :
    SupplierExcel.normalizeDate "25-nov-24" = "25/11/2024" ∧
    (∀ (dateStr d mn ys : String),
      dateStr ≠ "" →
      SupplierExcel.matchDDMMMYY (jsTrim dateStr) = some (d, mn, ys) →
      ys.length = 2 →
      SupplierExcel.normalizeDate dateStr =
        SupplierExcel.padStart2 d ++ "/" ++
          ((SupplierExcel.monthMap.lookup (jsToLowerStr mn)).getD "01") ++ "/" ++
          ("20" ++ ys)) := by
  constructor
  · decide
  · intro dateStr d mn ys hne hmatch hlen
    rw [SupplierExcel.normalizeDate, if_neg hne]
    simp only [hmatch, hlen, if_true]

/-- C6 counterexample: the two-digit year 99 resolves to 2099, not to
the 1999 the claim's under-50 heuristic prescribes. -/
theorem c6_counterexample :
    SupplierExcel.normalizeDate "25-nov-99" ≠ "25/11/1999" ∧
    SupplierExcel.normalizeDate "25-nov-99" = "25/11/2099" := by
  constructor
  · decide
  · decide

/-- C6 witness: the amended year-expansion conjunct applied at a
concrete input. -/
theorem c6_witness :
    SupplierExcel.normalizeDate "31-dic-85" =
      SupplierExcel.padStart2 "31" ++ "/" ++
        ((SupplierExcel.monthMap.lookup (jsToLowerStr "dic")).getD "01") ++ "/" ++
        ("20" ++ "85") :=
  c6_theorem.2 "31-dic-85" "31" "dic" "85" (by decide) (by decide) (by decide)

/-- Rows below the header that survive every guard of the data-row loop
carry a nonempty client, a nonempty invoice number and a nonzero
amount. -/
theorem processRows_mem (cols : SupplierExcel.SheetCols) (fileName sheetName : String) :
    ∀ (l : List (List String)) (r : SupplierRecord),
      r ∈ SupplierExcel.processRows cols fileName sheetName l →
      r.nombre ≠ "" ∧ r.documento ≠ "" ∧ r.importe ≠ 0 := by
  intro l
  induction l with
  | nil =>
    intro r hr
    simp [SupplierExcel.processRows] at hr
  | cons row rest ih =>
    intro r hr
    simp only [SupplierExcel.processRows] at hr
    split at hr
    case isTrue => exact ih r hr
    case isFalse hshort =>
      split at hr
      case isTrue => exact ih r hr
      case isFalse hempty =>
        split at hr
        case isTrue => exact ih r hr
        case isFalse htotal =>
          split at hr
          case isTrue => exact ih r hr
          case isFalse hzero =>
            rcases List.mem_cons.mp hr with h | h
            · subst h
              push_neg at hempty
              exact ⟨hempty.1, hempty.2.1, hzero⟩
            · exact ih r h

/-- C10: every supplier record parseSheet produces has a nonempty
client name, a nonempty document reference and a nonzero amount — rows
with an empty client, invoice or amount cell, total rows, and rows whose
amount parses to 0 are all skipped. -/
theorem c10_theorem (rows : List (List String)) (fileName sheetName : String)
    (r : SupplierRecord) (hr : r ∈ SupplierExcel.parseSheet rows fileName sheetName) :
    r.nombre ≠ "" ∧ r.documento ≠ "" ∧ r.importe ≠ 0 := by
  rw [SupplierExcel.parseSheet] at hr
  split at hr
  · simp at hr
  · exact processRows_mem _ _ _ _ r hr

/-- Demonstration sheet for the C10 witness: a header row and one valid
data row. -/
def c10Rows : List (List String) :=
  [["Client", "Data fra.", "Num. fra.", "Venciment", "IMPORT"],
   ["ACME SL", "01/11/2025", "F-2025-17", "25-nov-25", "1.234,56"]]

/-- C10 witness: the theorem applied to the record the demonstration
sheet produces. -/
theorem c10_witness :
    ({ id := "", fecha := "25/11/2025", codigo := "", nombre := "ACME SL",
       documento := "F-2025-17", referencia := "", importeRaw := "1.234,56",
       importe := mkRat 123456 100,
       sourceFile := "cobros.xlsx - NOVEMBRE" } : SupplierRecord).importe ≠ 0 :=
  (c10_theorem c10Rows "cobros.xlsx" "NOVEMBRE" _ (by decide)).2.2

/-- Appending the same suffix to different strings after a common prefix
yields different strings (the dedup keys of the Sabadell parser are
injective in the description segment). -/
theorem key_ne_of_mid_ne (p imp t1 t2 : String) (h : t1 ≠ t2) :
    p ++ t1 ++ "-" ++ imp ≠ p ++ t2 ++ "-" ++ imp := by
  intro heq
  apply h
  have hd := congrArg String.data heq
  simp only [String.data_append, List.append_assoc] at hd
  have hd' := List.append_inj_right hd rfl
  have hlen : t1.data.length = t2.data.length := by
    have := congrArg List.length hd'
    simp only [List.length_append] at this
    omega
  have := (List.append_inj hd' hlen).1
  cases t1
  cases t2
  exact congrArg String.mk (by simpa using this)

/-- C7: the dedup key differs between extractor variants.  The Sabadell
two-date loop keys on (posting date, value date, first 30 characters of
the description, raw amount), so two matches with identical dates and
amount whose descriptions differ within the first 30 characters are
both kept; the multi-pattern BBVA loop keys on (posting date, value
date, raw amount) only, so of two such matches at most one survives,
whatever their descriptions. -/
theorem c7_theorem :
    (∀ m1 m2 : Sabadell.SabMatch,
      m1.g1 = m2.g1 → m1.g2 = m2.g2 → m1.g4 = m2.g4 →
      Sabadell.take30 (jsTrim m1.g3) ≠ Sabadell.take30 (jsTrim m2.g3) →
      jsTrim m1.g3 ≠ "" → (jsTrim m1.g3).length > 2 →
      Sabadell.isHeaderText (jsTrim m1.g3) = false →
      jsTrim m2.g3 ≠ "" → (jsTrim m2.g3).length > 2 →
      Sabadell.isHeaderText (jsTrim m2.g3) = false →
      (Sabadell.extractLoop [] [m1, m2]).length = 2) ∧
    (∀ b1 b2 : List String,
      b1.length ≥ 5 → b2.length ≥ 5 →
      b1.getD 1 "" = b2.getD 1 "" → b1.getD 2 "" = b2.getD 2 "" →
      b1.getD 4 "" = b2.getD 4 "" →
      (Bbva.extractLoop [] [b1, b2]).length ≤ 1) := by
  constructor
  · intro m1 m2 h1 h2 h4 hne hc1 hl1 hh1 hc2 hl2 hh2
    have hkne := key_ne_of_mid_ne
      (Sabadell.normalizeDashes m1.g1 ++ "-" ++ Sabadell.normalizeDashes m1.g2 ++ "-")
      m1.g4 (Sabadell.take30 (jsTrim m1.g3)) (Sabadell.take30 (jsTrim m2.g3)) hne
    simp only [Sabadell.extractLoop]
    rw [← h1, ← h2, ← h4]
    rw [if_pos ⟨List.not_mem_nil _, hc1, hl1, by simp [hh1]⟩]
    rw [if_pos ⟨by simp [List.mem_singleton]; exact fun h => hkne h.symm,
      hc2, hl2, by simp [hh2]⟩]
    rfl
  · intro b1 b2 hL1 hL2 e1 e2 e4
    simp only [Bbva.extractLoop, if_pos hL1, if_pos hL2]
    rw [if_neg (List.not_mem_nil _)]
    have hk : b2.getD 1 "" ++ "-" ++ b2.getD 2 "" ++ "-" ++ b2.getD 4 "" =
        b1.getD 1 "" ++ "-" ++ b1.getD 2 "" ++ "-" ++ b1.getD 4 "" := by
      rw [← e1, ← e2, ← e4]
    split
    · rw [if_pos (List.mem_singleton.mpr hk)]
      simp
    · rw [if_pos (List.mem_singleton.mpr hk)]
      simp

/-- C7 counterexample: in the BBVA variant two rows with identical
dates and amount but different descriptions collapse to one record, so
the claim's "both kept in every variant" consequence fails. -/
theorem c7_counterexample :
    (Bbva.extractLoop []
      [["x", "01/01/2025", "01/01/2025", "PAGO UNO", "-100,00"],
       ["x", "01/01/2025", "01/01/2025", "PAGO DOS", "-100,00"]]).length = 1 ∧
    "PAGO UNO" ≠ "PAGO DOS" := by
  constructor
  · decide
  · decide

/-- Sabadell match pair for the C7 witness: same dates and amount,
descriptions that differ inside the first 30 characters. -/
def c7m1 : Sabadell.SabMatch :=
  { g1 := "15/01/2025", g2 := "16/01/2025", g3 := "RECIBO LUZ ENERO",
    g4 := "-234,56", g5 := some "1.000,00" }

/-- Second Sabadell match of the C7 witness pair. -/
def c7m2 : Sabadell.SabMatch :=
  { g1 := "15/01/2025", g2 := "16/01/2025", g3 := "RECIBO GAS ENERO",
    g4 := "-234,56", g5 := some "765,44" }

/-- C7 witness: the Sabadell conjunct applied to the concrete pair. -/
theorem c7_witness : (Sabadell.extractLoop [] [c7m1, c7m2]).length = 2 :=
  c7_theorem.1 c7m1 c7m2 rfl rfl rfl (by decide) (by decide) (by decide)
    (by decide) (by decide) (by decide) (by decide)

/-- One scan step leaves the accumulator or moves to the scanned
supplier. -/
theorem closestStep_fst (target : Int) (acc : SupplierRecord × Option Nat)
    (s : SupplierRecord) :
    (Recon.closestStep target acc s).1 = acc.1 ∨ (Recon.closestStep target acc s).1 = s := by
  rw [Recon.closestStep]
  split
  · left; rfl
  · split
    · right; rfl
    · dsimp only
      split
      · right; rfl
      · left; rfl

/-- The closest-date scan never leaves the scanned list (or keeps the
start accumulator). -/
theorem closest_fold_mem (target : Int) :
    ∀ (l : List SupplierRecord) (acc : SupplierRecord × Option Nat),
      (l.foldl (Recon.closestStep target) acc).1 = acc.1 ∨
      (l.foldl (Recon.closestStep target) acc).1 ∈ l := by
  intro l
  induction l with
  | nil => intro acc; left; rfl
  | cons s r ih =>
    intro acc
    rw [List.foldl_cons]
    rcases ih (Recon.closestStep target acc s) with h | h
    · rcases closestStep_fst target acc s with hs | hs
      · left; rw [h, hs]
      · right; rw [h, hs]; exact List.mem_cons_self _ _
    · right; exact List.mem_cons_of_mem _ h

/-- findClosestDateMatch returns a member of its candidate list. -/
theorem findClosestDateMatch_mem {l : List SupplierRecord} {targetDate : String}
    {r : SupplierRecord} (h : Recon.findClosestDateMatch l targetDate = some r) :
    r ∈ l := by
  cases l with
  | nil => simp [Recon.findClosestDateMatch] at h
  | cons s0 rest =>
    rw [Recon.findClosestDateMatch] at h
    split at h
    · injection h with h'
      rw [← h']
      exact List.mem_cons_self _ _
    · injection h with h'
      rcases closest_fold_mem _ (s0 :: rest) (s0, none) with hm | hm
      · rw [← h', hm]
        exact List.mem_cons_self _ _
      · rw [← h']
        exact hm

/-- The month/year step picks one of the amount candidates. -/
theorem monthYearStep_mem {amountMatches : List SupplierRecord} {bankDate : String}
    {r : SupplierRecord}
    (h : Recon.monthYearStep amountMatches bankDate = some (some r)) :
    r ∈ amountMatches := by
  rw [Recon.monthYearStep] at h
  split at h
  · exact absurd h (by simp)
  · dsimp only at h
    split at h
    · split at h
      · injection h with h'
        exact List.mem_of_mem_filter (findClosestDateMatch_mem h')
      · injection h with h'
        exact List.mem_of_mem_filter (List.mem_of_mem_head? h')
    · exact absurd h (by simp)

/-- The closest-date fallback picks one of the amount candidates. -/
theorem closestFallback_mem {bank : BankRecord} {amountMatches : List SupplierRecord}
    {options : Recon.MatchingOptionsReq} {r : SupplierRecord}
    (h : Recon.closestFallback bank amountMatches options = some r) :
    r ∈ amountMatches := by
  rw [Recon.closestFallback] at h
  split at h
  · rename_i cm hacc hcm
    dsimp only at h
    split at h
    · rename_i closestDate fValorDate fContableDate cwc h1 h2 h3 h4
      split at h
      · injection h with h'
        exact findClosestDateMatch_mem (h' ▸ h4)
      · injection h with h'
        exact findClosestDateMatch_mem (h' ▸ hcm)
    · injection h with h'
      exact findClosestDateMatch_mem (h' ▸ hcm)
  · exact findClosestDateMatch_mem h

/-- A found supplier match is a member of the pool it was searched in. -/
theorem findSupplierMatch_mem {bank : BankRecord} {suppliers : List SupplierRecord}
    {options : Recon.MatchingOptionsReq} {m : SupplierRecord}
    (h : Recon.findSupplierMatch bank suppliers options = some m) :
    m ∈ suppliers := by
  rw [Recon.findSupplierMatch] at h
  split at h
  · exact absurd h (by simp)
  · split at h
    · exact List.mem_of_mem_filter (List.mem_of_mem_head? h)
    · split at h
      · rename_i r hstep
        rw [h] at hstep
        exact List.mem_of_mem_filter (monthYearStep_mem hstep)
      · split at h
        · rename_i hstep3
          split at hstep3
          · rename_i r hstep
            rw [h] at hstep3
            exact List.mem_of_mem_filter (monthYearStep_mem hstep3)
          · exact absurd hstep3 (by simp)
        · exact List.mem_of_mem_filter (closestFallback_mem h)

/-- Removal by id yields a sublist of the pool. -/
theorem removeById_sublist (l : List SupplierRecord) (i : String) :
    List.Sublist (Recon.removeById l i) l := by
  induction l with
  | nil => exact List.Sublist.refl _
  | cons s rest ih =>
    rw [Recon.removeById]
    split
    · exact List.sublist_cons_self _ _
    · exact List.Sublist.cons₂ _ ih

/-- After removing an id from a pool with pairwise distinct ids, that
id is gone. -/
theorem not_mem_map_id_removeById (l : List SupplierRecord) (i : String)
    (h : (l.map (fun s => s.id)).Nodup) :
    i ∉ (Recon.removeById l i).map (fun s => s.id) := by
  induction l with
  | nil => simp [Recon.removeById]
  | cons s rest ih =>
    rw [Recon.removeById]
    rw [List.map_cons, List.nodup_cons] at h
    split
    · rename_i hs
      rw [← hs]
      exact h.1
    · rename_i hs
      rw [List.map_cons]
      intro hmem
      rcases List.mem_cons.mp hmem with h' | h'
      · exact hs h'.symm
      · exact ih h.2 h'

/-- Every consumed supplier comes from the pool the loop started with. -/
theorem consumedSuppliers_subset (bankRecords : List BankRecord) :
    ∀ (avail : List SupplierRecord) (options : Recon.MatchingOptionsReq)
      (c : SupplierRecord),
      c ∈ Recon.consumedSuppliers bankRecords avail options → c ∈ avail := by
  induction bankRecords with
  | nil =>
    intro avail options c hc
    simp [Recon.consumedSuppliers] at hc
  | cons b rest ih =>
    intro avail options c hc
    rw [Recon.consumedSuppliers] at hc
    split at hc
    · rename_i m hm
      rcases List.mem_cons.mp hc with h' | h'
      · rw [h']
        exact findSupplierMatch_mem hm
      · exact (removeById_sublist avail m.id).subset (ih _ _ _ h')
    · exact ih _ _ _ hc

/-- With pairwise distinct pool ids, the consumed suppliers have
pairwise distinct ids: each selected record really leaves the pool. -/
theorem consumedSuppliers_nodup (bankRecords : List BankRecord) :
    ∀ (avail : List SupplierRecord) (options : Recon.MatchingOptionsReq),
      (avail.map (fun s => s.id)).Nodup →
      ((Recon.consumedSuppliers bankRecords avail options).map (fun s => s.id)).Nodup := by
  induction bankRecords with
  | nil =>
    intro avail options _
    simp [Recon.consumedSuppliers]
  | cons b rest ih =>
    intro avail options h
    rw [Recon.consumedSuppliers]
    split
    · rename_i m hm
      rw [List.map_cons, List.nodup_cons]
      have hsub : List.Sublist ((Recon.removeById avail m.id).map (fun s => s.id))
          (avail.map (fun s => s.id)) := (removeById_sublist avail m.id).map _
      constructor
      · intro hmem
        rcases List.mem_map.mp hmem with ⟨c, hc, hcid⟩
        have hc' := consumedSuppliers_subset rest _ options c hc
        have hcmem : c.id ∈ (Recon.removeById avail m.id).map (fun s => s.id) :=
          List.mem_map_of_mem _ hc'
        rw [hcid] at hcmem
        exact not_mem_map_id_removeById avail m.id h hcmem
      · exact ih _ options (h.sublist hsub)
    · exact ih _ options h

/-- The matched documents of the output, in order, are exactly the
documents of the consumed suppliers. -/
theorem reconcileLoop_filterMap_matchedDoc (bankRecords : List BankRecord) :
    ∀ (avail : List SupplierRecord) (options : Recon.MatchingOptionsReq),
      (Recon.reconcileLoop bankRecords avail options).filterMap (fun r => r.matchedDoc) =
      (Recon.consumedSuppliers bankRecords avail options).map (fun s => s.documento) := by
  induction bankRecords with
  | nil =>
    intro avail options
    rfl
  | cons b rest ih =>
    intro avail options
    rw [Recon.reconcileLoop, Recon.consumedSuppliers]
    cases hm : Recon.findSupplierMatch b avail options with
    | some m =>
      rw [List.filterMap_cons, List.map_cons]
      simp only [Recon.mkMatchedRecord]
      rw [ih]
    | none =>
      rw [List.filterMap_cons]
      simp only [Recon.mkUnmatchedRecord]
      rw [ih]

/-- C2: when the supplier ids are pairwise distinct, each supplier is
consumed at most once — the consumed suppliers carry pairwise distinct
ids, they all come from the input pool, and the matched documents of
the output are exactly the documents of the consumed suppliers in
order, so no two output records draw their matchedDoc from the same
supplier record. -/
theorem c2_theorem (bankRecords : List BankRecord) (supplierRecords : List SupplierRecord)
    (options : Recon.MatchingOptions)
    (h : (supplierRecords.map (fun s => s.id)).Nodup) :
    ((Recon.consumedSuppliers bankRecords supplierRecords
        (Recon.mergeOptions options)).map (fun s => s.id)).Nodup ∧
    (Recon.performReconciliation bankRecords supplierRecords options).records.filterMap
        (fun r => r.matchedDoc) =
      (Recon.consumedSuppliers bankRecords supplierRecords
        (Recon.mergeOptions options)).map (fun s => s.documento) ∧
    (∀ c ∈ Recon.consumedSuppliers bankRecords supplierRecords
        (Recon.mergeOptions options), c ∈ supplierRecords) :=
  ⟨consumedSuppliers_nodup bankRecords supplierRecords (Recon.mergeOptions options) h,
   reconcileLoop_filterMap_matchedDoc bankRecords supplierRecords (Recon.mergeOptions options),
   fun c hc => consumedSuppliers_subset bankRecords supplierRecords
     (Recon.mergeOptions options) c hc⟩

/-- First bank record of the C2 witness: two bank movements compete for
one supplier record. -/
def c2Bank1 : BankRecord :=
  { id := "b1", fContable := "01/01/2025", fValor := "01/01/2025", concepto := "PAGO A",
    importeRaw := "100,00", importe := 100, saldo := none,
    sourceFile := "extracto.pdf", bankType := "bbva" }

/-- Second bank record of the C2 witness. -/
def c2Bank2 : BankRecord :=
  { id := "b2", fContable := "02/01/2025", fValor := "02/01/2025", concepto := "PAGO B",
    importeRaw := "100,00", importe := 100, saldo := none,
    sourceFile := "extracto.pdf", bankType := "bbva" }

/-- The single supplier record of the C2 witness. -/
def c2Supplier : SupplierRecord :=
  { id := "s1", fecha := "01/01/2025", codigo := "1", nombre := "PROVEEDOR",
    documento := "1/FC/1", referencia := "", importeRaw := "100,00",
    importe := 100, sourceFile := "listado.pdf" }

/-- C2 witness: the theorem applied to the concrete competing pair. -/
theorem c2_witness :
    ((Recon.consumedSuppliers [c2Bank1, c2Bank2] [c2Supplier]
        (Recon.mergeOptions {})).map (fun s => s.id)).Nodup :=
  (c2_theorem [c2Bank1, c2Bank2] [c2Supplier] {} (by decide)).1

/-- Scan invariant: the running best distance, when set, is the
distance of the running best supplier. -/
theorem closest_fold_inv (target : Int) :
    ∀ (l : List SupplierRecord) (acc : SupplierRecord × Option Nat),
      (acc.2 = none ∨ ∃ t', Recon.parseDateMs acc.1.fecha = some t' ∧
        acc.2 = some ((target - t').natAbs)) →
      ((l.foldl (Recon.closestStep target) acc).2 = none ∨
        ∃ t', Recon.parseDateMs (l.foldl (Recon.closestStep target) acc).1.fecha = some t' ∧
          (l.foldl (Recon.closestStep target) acc).2 = some ((target - t').natAbs)) := by
  intro l
  induction l with
  | nil => intro acc hacc; exact hacc
  | cons s r ih =>
    intro acc hacc
    rw [List.foldl_cons]
    apply ih
    rw [Recon.closestStep]
    split
    · exact hacc
    · rename_i t hparse
      split
      · right; exact ⟨t, hparse, rfl⟩
      · dsimp only
        split
        · right; exact ⟨t, hparse, rfl⟩
        · exact hacc

/-- A running best distance of 0 can never be beaten: the step keeps
the accumulator. -/
theorem closestStep_eq_of_zero (target : Int) (acc : SupplierRecord × Option Nat)
    (s : SupplierRecord) (h : acc.2 = some 0) :
    Recon.closestStep target acc s = acc := by
  rw [Recon.closestStep]
  split
  · rfl
  · rw [h]
    simp

/-- A running best distance of 0 survives the whole scan. -/
theorem closest_fold_zero (target : Int) :
    ∀ (l : List SupplierRecord) (acc : SupplierRecord × Option Nat),
      acc.2 = some 0 → (l.foldl (Recon.closestStep target) acc).2 = some 0 := by
  intro l
  induction l with
  | nil => intro acc h; exact h
  | cons s r ih =>
    intro acc h
    rw [List.foldl_cons, closestStep_eq_of_zero target acc s h]
    exact ih acc h

/-- Scanning a list holding a supplier at distance 0 ends with best
distance 0. -/
theorem closest_fold_reaches_zero (target : Int) (c : SupplierRecord)
    (hct : Recon.parseDateMs c.fecha = some target) :
    ∀ (l : List SupplierRecord) (acc : SupplierRecord × Option Nat),
      c ∈ l → (l.foldl (Recon.closestStep target) acc).2 = some 0 := by
  intro l
  induction l with
  | nil => intro acc hc; simp at hc
  | cons s r ih =>
    intro acc hc
    rw [List.foldl_cons]
    rcases List.mem_cons.mp hc with h | h
    · have hstep : (Recon.closestStep target acc s).2 = some 0 := by
        rw [Recon.closestStep, ← h, hct]
        dsimp only
        cases hacc : acc.2 with
        | none => simp
        | some best =>
          rcases Nat.eq_zero_or_pos best with hb | hb
          · simp [hb, hacc]
          · simp [hacc, sub_self, hb]
      exact closest_fold_zero target r _ hstep
    · exact ih (Recon.closestStep target acc s) h

/-- When the target date parses and some candidate's date parses to the
same instant, findClosestDateMatch returns a candidate at that very
instant (distance 0 is minimal). -/
theorem findClosestDateMatch_exact (l : List SupplierRecord) (targetDate : String)
    (target : Int) (ht : Recon.parseDateMs targetDate = some target)
    (c : SupplierRecord) (hc : c ∈ l) (hct : Recon.parseDateMs c.fecha = some target) :
    ∃ r, Recon.findClosestDateMatch l targetDate = some r ∧
      Recon.parseDateMs r.fecha = some target := by
  cases l with
  | nil => simp at hc
  | cons s0 rest =>
    rw [Recon.findClosestDateMatch, ht]
    dsimp only
    have hzero := closest_fold_reaches_zero target c hct (s0 :: rest) (s0, none) hc
    have hinv := closest_fold_inv target (s0 :: rest) (s0, none) (Or.inl rfl)
    rcases hinv with hnone | ⟨t', hparse, hsome⟩
    · rw [hzero] at hnone
      cases hnone
    · rw [hzero] at hsome
      injection hsome with habs
      have ht' : t' = target := by
        have := Int.natAbs_eq_zero.mp habs.symm
        omega
      exact ⟨_, rfl, by rw [hparse, ht']⟩

/-- A parseable date has a month/year projection. -/
theorem getMonthYear_of_parse {dateStr : String} {t : Int}
    (h : Recon.parseDateMs dateStr = some t) :
    ∃ my, Recon.getMonthYear dateStr = some my := by
  by_cases hne : dateStr = ""
  · rw [Recon.parseDateMs, if_pos hne] at h
    cases h
  · rw [Recon.parseDateMs, if_neg hne] at h
    rw [Recon.getMonthYear, if_neg hne]
    cases hsp : splitSlash dateStr with
    | nil => rw [hsp] at h; simp at h
    | cons p0 r1 =>
      cases r1 with
      | nil => rw [hsp] at h; simp at h
      | cons p1 r2 =>
        cases r2 with
        | nil => rw [hsp] at h; simp at h
        | cons p2 r3 =>
          cases r3 with
          | nil => exact ⟨_, rfl⟩
          | cons p3 r4 => rw [hsp] at h; simp at h

/-- When a candidate's date equals the bank's value date as a string,
the month/year step returns a candidate with exactly that date,
provided the value date parses and no other candidate's date parses to
the same instant under a different spelling. -/
theorem monthYearStep_exact (amountMatches : List SupplierRecord) (bankDate : String)
    (target : Int) (ht : Recon.parseDateMs bankDate = some target)
    (hinj : ∀ x ∈ amountMatches,
      Recon.parseDateMs x.fecha = some target → x.fecha = bankDate)
    (c : SupplierRecord) (hc : c ∈ amountMatches) (hcd : c.fecha = bankDate) :
    ∃ r, Recon.monthYearStep amountMatches bankDate = some (some r) ∧
      r.fecha = bankDate := by
  obtain ⟨my, hmy⟩ := getMonthYear_of_parse ht
  rw [Recon.monthYearStep, hmy]
  dsimp only
  have hcm : c ∈ amountMatches.filter
      (fun supplier => Recon.getMonthYear supplier.fecha = some my) :=
    List.mem_filter.mpr ⟨hc, by simp [hcd, hmy]⟩
  have hpos : (amountMatches.filter
      (fun supplier => Recon.getMonthYear supplier.fecha = some my)).length > 0 :=
    List.length_pos.mpr (List.ne_nil_of_mem hcm)
  rw [if_pos hpos]
  by_cases h1 : (amountMatches.filter
      (fun supplier => Recon.getMonthYear supplier.fecha = some my)).length > 1
  · rw [if_pos h1]
    obtain ⟨r, hr, hrt⟩ := findClosestDateMatch_exact _ bankDate target ht c hcm
      (by rw [hcd]; exact ht)
    refine ⟨r, by rw [hr], ?_⟩
    exact hinj r (List.mem_of_mem_filter (findClosestDateMatch_mem hr)) hrt
  · rw [if_neg h1]
    have hlen : (amountMatches.filter
        (fun supplier => Recon.getMonthYear supplier.fecha = some my)).length = 1 := by
      omega
    obtain ⟨a, ha⟩ := List.length_eq_one.mp hlen
    refine ⟨a, by rw [ha]; rfl, ?_⟩
    have hca : c = a := by
      rw [ha] at hcm
      simpa using hcm
    rw [← hca]
    exact hcd

/-- C1 (amended): among two or more amount candidates, exact matching
against the value date does come first — if a candidate's date equals
the bank record's value date, the selected candidate has exactly that
date (hypotheses: the value date parses; no candidate's date parses to
the same instant under a different spelling).  Exact accounting-date
matches enjoy no such precedence; see the counterexample. -/
theorem c1_theorem (bank : BankRecord) (suppliers : List SupplierRecord)
    (options : Recon.MatchingOptionsReq) (target : Int) (c : SupplierRecord)
    (ht : Recon.parseDateMs bank.fValor = some target)
    (hc : c ∈ Recon.amountMatchesOf bank suppliers options)
    (hcd : c.fecha = bank.fValor)
    (hinj : ∀ x ∈ Recon.amountMatchesOf bank suppliers options,
      Recon.parseDateMs x.fecha = some target → x.fecha = bank.fValor) :
    ∃ r, Recon.findSupplierMatch bank suppliers options = some r ∧
      r.fecha = bank.fValor := by
  simp only [Recon.findSupplierMatch]
  have hne0 : ¬ (Recon.amountMatchesOf bank suppliers options).length = 0 := by
    have := List.length_pos.mpr (List.ne_nil_of_mem hc)
    omega
  rw [if_neg hne0]
  by_cases h1 : (Recon.amountMatchesOf bank suppliers options).length = 1
  · rw [if_pos h1]
    obtain ⟨a, ha⟩ := List.length_eq_one.mp h1
    have hca : c = a := by
      rw [ha] at hc
      simpa using hc
    refine ⟨a, by rw [ha]; rfl, ?_⟩
    rw [← hca]
    exact hcd
  · rw [if_neg h1]
    obtain ⟨r, hstep, hr⟩ := monthYearStep_exact _ _ target ht hinj c hc hcd
    rw [hstep]
    exact ⟨r, rfl, hr⟩

/-- Bank record of the C1 counterexample: value date in January,
accounting date in February. -/
def c1Bank : BankRecord :=
  { id := "b1", fContable := "15/02/2025", fValor := "01/01/2025", concepto := "PAGO",
    importeRaw := "100,00", importe := 100, saldo := none,
    sourceFile := "extracto.pdf", bankType := "bbva" }

/-- First candidate of the C1 counterexample: same month/year as the
value date but a different day. -/
def c1SupplierA : SupplierRecord :=
  { id := "s1", fecha := "20/01/2025", codigo := "1", nombre := "A SL",
    documento := "DOC-A", referencia := "", importeRaw := "100,00",
    importe := 100, sourceFile := "listado.pdf" }

/-- Second candidate of the C1 counterexample: its date equals the
accounting date exactly. -/
def c1SupplierB : SupplierRecord :=
  { id := "s2", fecha := "15/02/2025", codigo := "2", nombre := "B SL",
    documento := "DOC-B", referencia := "", importeRaw := "100,00",
    importe := 100, sourceFile := "listado.pdf" }

/-- C1 counterexample: with useAccountingDate on, two amount
candidates, no candidate equal to the value date, and one candidate
exactly equal to the accounting date, the code still selects the other
candidate (the one merely sharing the value date's month) — the
claimed precedence of exact accounting-date matching over the
month/year fallback does not exist. -/
theorem c1_counterexample :
    (Recon.amountMatchesOf c1Bank [c1SupplierA, c1SupplierB]
      Recon.DEFAULT_OPTIONS).length = 2 ∧
    Recon.DEFAULT_OPTIONS.useAccountingDate = true ∧
    c1SupplierA.fecha ≠ c1Bank.fValor ∧
    c1SupplierB.fecha ≠ c1Bank.fValor ∧
    c1SupplierB.fecha = c1Bank.fContable ∧
    c1SupplierA.fecha ≠ c1Bank.fContable ∧
    Recon.findSupplierMatch c1Bank [c1SupplierA, c1SupplierB]
      Recon.DEFAULT_OPTIONS = some c1SupplierA := by
  refine ⟨?_, ?_, ?_, ?_, ?_, ?_, ?_⟩ <;> decide

/-- Bank record of the C1 witness. -/
def c1wBank : BankRecord :=
  { id := "b1", fContable := "01/01/2025", fValor := "01/01/2025", concepto := "PAGO",
    importeRaw := "100,00", importe := 100, saldo := none,
    sourceFile := "extracto.pdf", bankType := "bbva" }

/-- Off-date candidate of the C1 witness. -/
def c1wA : SupplierRecord :=
  { id := "s1", fecha := "05/01/2025", codigo := "1", nombre := "A SL",
    documento := "DOC-A", referencia := "", importeRaw := "100,00",
    importe := 100, sourceFile := "listado.pdf" }

/-- Exact-date candidate of the C1 witness. -/
def c1wB : SupplierRecord :=
  { id := "s2", fecha := "01/01/2025", codigo := "2", nombre := "B SL",
    documento := "DOC-B", referencia := "", importeRaw := "100,00",
    importe := 100, sourceFile := "listado.pdf" }

/-- C1 witness: the amended theorem applied to a concrete pool where
one of two candidates has exactly the value date. -/
theorem c1_witness :
    ∃ r, Recon.findSupplierMatch c1wBank [c1wA, c1wB] Recon.DEFAULT_OPTIONS = some r ∧
      r.fecha = c1wBank.fValor :=
  c1_theorem c1wBank [c1wA, c1wB] Recon.DEFAULT_OPTIONS 1735689600000 c1wB
    (by decide) (by decide) (by decide) (by decide)

end Conciliador
